import Mathlib

/-!
Website Analyzer Backend — verification of the specification against the code.

Shallow embedding of the three near-duplicate Express/Puppeteer servers of
this repository (`index.js` and the two unnamed variants, here called
`Part000` and `Part001` after their file order), together with proofs and
refutations of the frozen claims about the spec.

Conventions of the embedding:
* Pure in-page computations (`page.evaluate` callbacks) become Lean
  functions on the list of values they would read from the DOM.
* A `page.evaluate`/browser call that may reject is modelled as an
  `Except Unit α` value supplied by the caller; JavaScript `try/catch`
  becomes a `match` on that value, and absence of `try/catch` leaves the
  `Except` untouched.
* JavaScript `Set` insertion order is modelled by `setOfList`
  (first-occurrence deduplication), JavaScript `String.prototype.includes`
  by `jsIncludes`, `str.match(/\d+/g)` by `digitRuns`, and
  `n.toString(16).padStart(2, "0")` by `jsHexByte`.
* Machine integers do not occur: all numbers involved are small
  non-negative counts, modelled as `Nat`.
-/

/-! ## JavaScript string and collection primitives -/

/-- Decidable prefix test on character lists. -/
def isPrefixB : List Char → List Char → Bool
  | [], _ => true
  | _ :: _, [] => false
  | a :: as, b :: bs => a == b && isPrefixB as bs

/-- Contiguous-substring test on character lists: does `s` contain `p`? -/
def containsSub (p : List Char) : List Char → Bool
  | [] => isPrefixB p []
  | c :: t => isPrefixB p (c :: t) || containsSub p t

/-- JavaScript `s.includes(pat)`: contiguous substring containment. -/
def jsIncludes (s pat : String) : Bool :=
  containsSub pat.data s.data

/-- JavaScript `s.startsWith(pat)`. -/
def jsStartsWith (s pat : String) : Bool :=
  isPrefixB pat.data s.data

/-- One step of JavaScript `Set.prototype.add`: append iff not present. -/
def setAdd (acc : List String) (x : String) : List String :=
  if acc.contains x then acc else acc ++ [x]

/-- JavaScript `Set` built from a list: deduplication keeping the first
occurrence of each element, in insertion order (`[...new Set(l)]`). -/
def setOfList (l : List String) : List String :=
  l.foldl setAdd []

/-- Numeric value of a (non-empty) run of decimal digit characters,
as JavaScript `Number(run)` computes it for an all-digit string. -/
def digitsVal (ds : List Char) : Nat :=
  ds.foldl (fun n c => 10 * n + (c.toNat - 48)) 0

/-- Worker for `digitRuns`: `cur` is the reversed digit run in progress. -/
def digitRunsGo (cur : List Char) : List Char → List Nat
  | [] => if cur.isEmpty then [] else [digitsVal cur.reverse]
  | c :: t =>
    if c.isDigit then digitRunsGo (c :: cur) t
    else if cur.isEmpty then digitRunsGo [] t
    else digitsVal cur.reverse :: digitRunsGo [] t

/-- JavaScript `str.match(/\d+/g)` followed by `Number` on each match:
the values of the maximal runs of decimal digits in `s`, in order.
An empty result list models the `null` returned when no digit occurs. -/
def digitRuns (s : String) : List Nat :=
  digitRunsGo [] s.data

/-- JavaScript `n.toString(16)` for a non-negative integer:
lowercase hexadecimal digits. -/
def jsToStringHex (n : Nat) : String :=
  ⟨Nat.toDigits 16 n⟩

/-- JavaScript `s.padStart(2, "0")`. -/
def padStart2 (s : String) : String :=
  ⟨List.replicate (2 - s.data.length) '0' ++ s.data⟩

/-- The per-component conversion `x.toString(16).padStart(2, "0")` used by
every color pipeline in the repository. -/
def jsHexByte (n : Nat) : String :=
  padStart2 (jsToStringHex n)

/-! ## Color extraction pipelines (C1)

`index.js` `extractColors`, the `Part000` capture + `rgbToHex` pipeline and
the inline `colors` evaluation of `Part001`. Each takes the sequence of
computed `color` / `backgroundColor` strings the DOM walk would read
(in document order) and produces the list the server would return.
`Option`/`Except` model a thrown `TypeError` (`m.map` on a `null` match,
`undefined.toString(16)`). -/

/-- `"#" + m.map((x) => Number(x).toString(16).padStart(2, "0")).join("")`
for `m = rgb.match(/\d+/g)`; `none` models the `TypeError` thrown when the
match is `null` (no digit in the string). Used verbatim by `index.js`
(`extractColors`) and `Part001` (inline `colors` evaluation). -/
def rgbToHexJoin (rgb : String) : Option String :=
  match digitRuns rgb with
  | [] => none
  | runs => some ("#" ++ String.join (runs.map jsHexByte))

namespace Index

/-- `extractColors` of `index.js` (lines 149–167): collect the computed
style strings that start with `"rgb"` into a `Set`, keep the first 25,
convert each with `rgbToHexJoin`. `styles` is the interleaved sequence of
`color` and `backgroundColor` values over all elements. -/
def extractColors (styles : List String) : Option (List String) :=
  ((setOfList (styles.filter (fun c => jsStartsWith c "rgb"))).take 25).mapM
    rgbToHexJoin

end Index

namespace Part000

/-- Page side of `extractCSSColors` (part_000 lines 93–112): keep computed
style strings that are truthy, not `"rgba(0, 0, 0, 0)"` and start with
`"rgb"`, deduplicated in insertion order. The 1200-element DOM bound only
limits which styles are read, so it is part of the input list here. -/
def cssColorCapture (styles : List String) : List String :=
  setOfList (styles.filter
    (fun c => !(c == "") && !(c == "rgba(0, 0, 0, 0)") && jsStartsWith c "rgb"))

/-- `rgbToHex` of part_000 (lines 35–41): `null` (here `Except.ok none`)
when the string has no digits; destructures the first three matches as
`r, g, b`, so with one or two matches `undefined.toString(16)` throws
(`Except.error`); otherwise the fourth and later matches are ignored. -/
def rgbToHex (rgb : String) : Except Unit (Option String) :=
  match digitRuns rgb with
  | [] => .ok none
  | [_] => .error ()
  | [_, _] => .error ()
  | r :: g :: b :: _ => .ok (some ("#" ++ String.join ([r, g, b].map jsHexByte)))

/-- Server-side color pipeline of part_000 (line 371):
`rawColors.map(rgbToHex).filter(Boolean).slice(0, 30)`. -/
def colorsPipeline (styles : List String) : Except Unit (List String) :=
  ((cssColorCapture styles).mapM rgbToHex).map
    (fun l => (l.filterMap id).take 30)

end Part000

namespace Part001

/-- Inline `colors` evaluation of part_001 (lines 105–121): every truthy
style string goes into the `Set`; the `"rgb"`-prefix filter runs after
deduplication, then the first 20 are converted with `rgbToHexJoin`. -/
def colorsEval (styles : List String) : Option (List String) :=
  (((setOfList (styles.filter (fun c => !(c == "")))).filter
      (fun c => jsStartsWith c "rgb")).take 20).mapM rgbToHexJoin

end Part001

/-! ## Category classification (C3)

The keyword-scoring classifier exists three times: `extractCategory` in
part_000 (lines 169–315) and part_001 (lines 37–73) share the loop
`if (score > highestScore) update`, over different rule tables;
`extractWebsiteIntelligence` in `index.js` (lines 81–120) keeps all rules
with positive score, stable-sorts them by score descending and takes the
first label. -/

/-- ASCII lowercasing, JavaScript `s.toLowerCase()` on the ASCII text the
classifiers handle. -/
def jsToLower (s : String) : String :=
  ⟨s.data.map Char.toLower⟩

/-- JavaScript `s.slice(0, n)`. -/
def jsSlice (s : String) (n : Nat) : String :=
  ⟨s.data.take n⟩

/-- `(document.title + " " + document.body.innerText.slice(0, n)).toLowerCase()`,
the text every classifier scores against. -/
def pageText (title body : String) (n : Nat) : String :=
  jsToLower (title ++ " " ++ jsSlice body n)

/-- Score of one rule: how many of its keywords occur in `text`
(`rule.keywords.forEach((k) => { if (text.includes(k)) score++ })`). -/
def ruleScore (text : String) (keywords : List String) : Nat :=
  (keywords.filter (fun k => jsIncludes text k)).length

/-- The selection loop shared by part_000 and part_001 `extractCategory`:
start from `("General Website", 0)` and replace on strictly greater score. -/
def categoryLoop (rules : List (String × List String)) (text : String) :
    String :=
  (rules.foldl
    (fun acc r =>
      if ruleScore text r.2 > acc.2 then (r.1, ruleScore text r.2) else acc)
    ("General Website", 0)).1

/-- The rule table of part_000 `extractCategory` (lines 178–293). -/
def part000Rules : List (String × List String) :=
  [("E-commerce",
    ["shop", "store", "cart", "checkout", "buy", "order", "product", "sale"]),
   ("Marketplace", ["marketplace", "vendors", "sellers", "listings"]),
   ("Technology / SaaS",
    ["software", "saas", "platform", "cloud", "api", "dashboard",
     "integration"]),
   ("AI / Data / ML",
    ["artificial intelligence", "machine learning", "ai", "llm", "chatbot",
     "analytics"]),
   ("Education",
    ["education", "course", "learn", "training", "tutorial", "academy",
     "certification"]),
   ("Finance",
    ["bank", "banking", "investment", "loan", "insurance", "finance"]),
   ("Healthcare",
    ["health", "medical", "clinic", "hospital", "doctor", "patient"]),
   ("News / Media", ["news", "media", "journal", "headline", "breaking news"]),
   ("Blog / Content",
    ["blog", "article", "post", "read more", "author", "comments"]),
   ("Portfolio / Personal",
    ["portfolio", "my work", "projects", "case study", "developer",
     "designer"]),
   ("Corporate Website",
    ["about us", "our company", "leadership", "investors", "careers",
     "mission"]),
   ("Real Estate", ["real estate", "property", "rent", "buy home"]),
   ("Travel / Hospitality",
    ["travel", "hotel", "booking", "reservation", "vacation"]),
   ("Government / Public Service",
    ["government", "ministry", "public service", "policy"]),
   ("Non-Profit / NGO",
    ["ngo", "charity", "donation", "volunteer", "foundation"])]

/-- The rule table of part_001 `extractCategory` (lines 45–58). -/
def part001Rules : List (String × List String) :=
  [("AI / Data / ML", ["ai", "machine learning", "chatbot", "llm", "analytics"]),
   ("Social Media", ["social", "community", "followers", "share"]),
   ("E-commerce", ["shop", "store", "cart", "checkout", "buy"]),
   ("Education", ["course", "learn", "academy", "training"]),
   ("Finance", ["bank", "finance", "investment", "crypto"]),
   ("Healthcare", ["health", "medical", "clinic"]),
   ("SaaS / Technology", ["software", "platform", "api", "dashboard"]),
   ("News / Media", ["news", "media", "headline"]),
   ("Portfolio", ["portfolio", "projects", "case study"])]

/-- `extractCategory` of part_000 on a page with the given title and body
text: the in-page computation after `page.evaluate` succeeds. -/
def extractCategoryEval000 (title body : String) : String :=
  categoryLoop part000Rules (pageText title body 3000)

/-- `extractCategory` of part_001. -/
def extractCategoryEval001 (title body : String) : String :=
  categoryLoop part001Rules (pageText title body 3000)

/-- One entry of the static `CATEGORY_RULES` table of `index.js`. -/
structure CategoryRule where
  label : String
  tags : List String
  keywords : List String

/-- `CATEGORY_RULES` of `index.js` (lines 36–77). -/
def CATEGORY_RULES : List CategoryRule :=
  [{ label := "Technology",
     tags := ["tech", "software", "platform", "api", "developer"],
     keywords := ["software", "api", "cloud", "developer", "code"] },
   { label := "AI / Machine Learning",
     tags := ["ai", "ml", "chatbot", "automation"],
     keywords := ["ai", "machine learning", "llm", "chatbot", "automation"] },
   { label := "Education",
     tags := ["education", "learning", "courses", "training"],
     keywords := ["course", "learn", "academy", "training", "education"] },
   { label := "E-commerce",
     tags := ["shopping", "store", "products"],
     keywords := ["shop", "cart", "checkout", "buy", "product"] },
   { label := "Social Media",
     tags := ["social-media", "community", "network"],
     keywords := ["social", "community", "followers", "share"] },
   { label := "Entertainment",
     tags := ["fun", "movies", "music", "videos"],
     keywords := ["movie", "music", "video", "entertainment", "stream"] },
   { label := "Finance",
     tags := ["finance", "banking", "investment"],
     keywords := ["bank", "finance", "investment", "crypto"] },
   { label := "Healthcare",
     tags := ["health", "medical", "fitness"],
     keywords := ["health", "clinic", "medical", "doctor"] }]

/-- A `{ label, score }` record pushed into `categoryScores`. -/
structure ScoredLabel where
  label : String
  score : Nat

/-- Insertion step of the stable descending sort. -/
def insertDesc (x : ScoredLabel) : List ScoredLabel → List ScoredLabel
  | [] => [x]
  | y :: t => if y.score > x.score then y :: insertDesc x t else x :: y :: t

/-- `categoryScores.sort((a, b) => b.score - a.score)`: JavaScript sort is
stable, modelled by stable insertion sort on descending score. -/
def sortByScoreDesc : List ScoredLabel → List ScoredLabel
  | [] => []
  | x :: t => insertDesc x (sortByScoreDesc t)

namespace Index

/-- The `categoryScores` array of `extractWebsiteIntelligence`: rules with
positive score, in table order. -/
def categoryScores (text : String) : List ScoredLabel :=
  CATEGORY_RULES.filterMap (fun rule =>
    if ruleScore text rule.keywords > 0 then
      some ⟨rule.label, ruleScore text rule.keywords⟩
    else none)

/-- Return record of `extractWebsiteIntelligence` (index.js 81–120). -/
structure Intelligence where
  websiteType : String
  categories : List String
  websiteTags : List String
  relatedPhrases : List String

/-- `extractWebsiteIntelligence` after a successful `page.evaluate`:
sort the positive-score rules by score descending (stable), keep at most 6
labels, take the first as `websiteType` (`categories[0] || "General
Website"`, where an empty string would also fall back), and collect the
tags of every positive-score rule in table order. -/
def extractWebsiteIntelligenceEval (title body : String) : Intelligence :=
  let text := pageText title body 6000
  let categories :=
    ((sortByScoreDesc (categoryScores text)).take 6).map (·.label)
  { websiteType :=
      match categories.head? with
      | some c => if c == "" then "General Website" else c
      | none => "General Website"
    categories := categories
    websiteTags :=
      setOfList ((CATEGORY_RULES.filter
        (fun rule => ruleScore text rule.keywords > 0)).flatMap (·.tags))
    relatedPhrases :=
      categories.map
        (fun c => "websites similar to " ++ jsToLower c ++ " platforms") }

end Index

/-- The keyword table of `index.js` in the shared `(label, keywords)` form,
for comparison with the spec-side selector. -/
def indexKeywordRules : List (String × List String) :=
  CATEGORY_RULES.map (fun r => (r.label, r.keywords))

/-- The maximum rule score over a table. -/
def maxRuleScore (rules : List (String × List String)) (text : String) : Nat :=
  (rules.map (fun r => ruleScore text r.2)).foldr max 0

/-- The selection rule as the spec words it: the label of the first rule
attaining the maximum score, and the generic default exactly when no rule
scores above zero. Stated independently of the loops and sorts of the
code, for comparison with them. -/
def specTopLabel (rules : List (String × List String)) (text : String) :
    String :=
  if maxRuleScore rules text = 0 then "General Website"
  else
    match rules.find?
        (fun r => ruleScore text r.2 == maxRuleScore rules text) with
    | some r => r.1
    | none => "General Website"

/-! ## Font classification (C6) -/

/-- The per-name bucket of `classifyFontTypes` (part_000 lines 135–145). -/
def classifyFont (f : String) : String :=
  let name := jsToLower f
  if jsIncludes name "mono" then "monospace"
  else if jsIncludes name "serif" && !(jsIncludes name "sans") then "serif"
  else "sans-serif"

/-- `classifyFontTypes` of part_000: the `Set` of buckets of the extracted
font names, in first-occurrence order. -/
def classifyFontTypes (fonts : List String) : List String :=
  setOfList (fonts.map classifyFont)

/-! ## URL validation (C2)

All three files define the same `isValidUrl`: `try { new URL(value); return
true } catch { return false }`. The `URL` constructor is the WHATWG URL
platform builtin, not repository code; `URLModel` embeds the slice of its
behavior that decides validity: a string is accepted exactly when it has a
well-formed scheme, and — for the special schemes — an authority with a
non-empty host and a numeric port. Deliberate simplifications, none of
which affect the inputs reasoned about below: no input trimming, no
percent-decoding or IDNA host normalization, and `file:` URLs are treated
as valid whenever their authority characters are admissible. -/

namespace URLModel

/-- Characters admissible in a scheme after the first: ASCII alphanumeric,
`+`, `-`, `.` per the URL standard. -/
def isSchemeChar (c : Char) : Bool :=
  c.isAlpha || c.isDigit || c == '+' || c == '-' || c == '.'

/-- Longest prefix of scheme characters, and the remainder. -/
def takeSchemeRun : List Char → List Char × List Char
  | [] => ([], [])
  | c :: t =>
    if isSchemeChar c then
      let p := takeSchemeRun t
      (c :: p.1, p.2)
    else ([], c :: t)

/-- Split `value` into a scheme and the text after the colon: the scheme
must be non-empty, start with an ASCII letter and be followed by `:`. -/
def splitScheme (s : List Char) : Option (List Char × List Char) :=
  match takeSchemeRun s with
  | (c :: sch, ':' :: rest) =>
    if c.isAlpha then some (c :: sch, rest) else none
  | _ => none

/-- The special schemes of the URL standard: these require an authority. -/
def specialSchemes : List String :=
  ["ftp", "file", "http", "https", "ws", "wss"]

/-- Characters that make a host invalid (forbidden host code points). -/
def hostForbidden (c : Char) : Bool :=
  [' ', '\t', '\n', '\r', '#', '/', ':', '<', '>', '?', '@', '[', '\\', ']',
   '^', '|'].contains c

/-- Drop an optional `userinfo@` prefix: everything up to the last `@`. -/
def afterLastAt (auth : List Char) : List Char :=
  (auth.reverse.takeWhile (fun c => !(c == '@'))).reverse

/-- Validate the host and port inside an authority; returns the host. -/
def parseHostPort (auth : List Char) : Option String :=
  let hostport := afterLastAt auth
  let host := hostport.takeWhile (fun c => !(c == ':'))
  let port := (hostport.dropWhile (fun c => !(c == ':'))).drop 1
  if host.any hostForbidden then none
  else if !(port.all Char.isDigit) then none
  else some ⟨host⟩

/-- Authority terminators: the first of these ends the authority. -/
def isAuthEnd (c : Char) : Bool :=
  c == '/' || c == '?' || c == '#' || c == '\\'

/-- Validity of the part after `scheme:`, given the lowercased scheme;
returns the host when an authority is present. `none` is a parse failure.
Special schemes skip any run of slashes and then require an authority
(non-empty host except for `file:`); other schemes take an authority only
after `//` and otherwise carry an opaque path, which never fails. -/
def parseAfterScheme (scheme : String) (rest : List Char) :
    Option (Option String) :=
  if specialSchemes.contains scheme then
    let auth := (rest.dropWhile (fun c => c == '/' || c == '\\')).takeWhile
      (fun c => !(isAuthEnd c))
    match parseHostPort auth with
    | none => none
    | some h => if h == "" && !(scheme == "file") then none else some (some h)
  else
    match rest with
    | '/' :: '/' :: r =>
      match parseHostPort (r.takeWhile (fun c => !(isAuthEnd c))) with
      | none => none
      | some h => some (some h)
    | _ => some none

/-- Scheme and authority of a parsed URL. -/
structure URLRec where
  scheme : String
  host : Option String

/-- The WHATWG `URL` constructor on an absolute input: `none` models the
`TypeError` the builtin throws on invalid input. -/
def parseURL (value : String) : Option URLRec :=
  match splitScheme value.data with
  | none => none
  | some (sch, rest) =>
    let scheme : String := ⟨sch.map Char.toLower⟩
    match parseAfterScheme scheme rest with
    | none => none
    | some h => some { scheme := scheme, host := h }

end URLModel

/-- `isValidUrl` as defined identically in `index.js` (25–32), part_000
(26–33) and part_001 (26–33): `new URL(value)` succeeds or throws. -/
def isValidUrl (value : String) : Bool :=
  (URLModel.parseURL value).isSome

/-- The acceptance condition as the spec words it: a syntactically valid
absolute URL with scheme AND authority. Stated for comparison with
`isValidUrl`. -/
def specValidUrl (value : String) : Bool :=
  match URLModel.parseURL value with
  | some r => r.host.isSome
  | none => false

/-! ## Extractor fault handling (C4)

The part_000 extractors wrap their `page.evaluate` in `try { ... } catch {
return default }`; the `index.js` extractors (`extractWebsiteIntelligence`,
`extractFonts`, `extractColors`) and the inline part_001 evaluations have
no `try` at all and hand the promise straight back to the caller. The
evaluation outcome is the `Except Unit` argument. -/

namespace Part000

/-- The `try/catch` of `extractCSSColors` (93–112): an evaluation failure
becomes `[]`. -/
def extractCSSColors (eval : Except Unit (List String)) : List String :=
  match eval with
  | .ok v => v
  | .error _ => []

/-- The `try/catch` of `extractFonts` (114–133): failure becomes `[]`. -/
def extractFonts (eval : Except Unit (List String)) : List String :=
  match eval with
  | .ok v => v
  | .error _ => []

/-- The `try/catch` of `extractTags` (147–167): failure becomes `[]`. -/
def extractTags (eval : Except Unit (List String)) : List String :=
  match eval with
  | .ok v => v
  | .error _ => []

/-- The `try/catch` of `extractCategory` (169–315): failure becomes
`"Unknown"`. -/
def extractCategory (eval : Except Unit String) : String :=
  match eval with
  | .ok v => v
  | .error _ => "Unknown"

end Part000

namespace Index

/-- `extractColors` of `index.js` at the call boundary: the function body
is `return page.evaluate(...)` with no `try/catch`, so the outcome —
including a rejection — is returned to `analyzeSingleWebsite` unchanged. -/
def extractColorsCall (eval : Except Unit (List String)) :
    Except Unit (List String) :=
  eval

/-- `extractFonts` of `index.js` (124–145): likewise no `try/catch`. -/
def extractFontsCall (eval : Except Unit (List String)) :
    Except Unit (List String) :=
  eval

/-- `extractWebsiteIntelligence` of `index.js` (81–120): likewise no
`try/catch`. -/
def extractWebsiteIntelligenceCall (eval : Except Unit Intelligence) :
    Except Unit Intelligence :=
  eval

end Index

/-! ## HTTP handlers (C5, C7, C8, C9, C10)

Request handlers become functions from the request body (plus oracles for
the browser work) to a response value and a resource trace. `launched`
records whether `puppeteer.launch` returned a browser instance and
`closed` whether the `finally` clause ran `browser.close()` on it. -/

/-- The full record returned by `analyzeSingleWebsite` (index.js 201–212),
minus the `url` field the function adds itself. -/
structure AnalysisCore where
  websiteName : String
  websiteType : String
  categories : List String
  tags : List String
  relatedPhrases : List String
  colors : List String
  fonts : List String
  desktopScreenshot : String
  mobileScreenshot : String

/-- The analysis result record of index.js. -/
structure AnalysisData where
  url : String
  websiteName : String
  websiteType : String
  categories : List String
  tags : List String
  relatedPhrases : List String
  colors : List String
  fonts : List String
  desktopScreenshot : String
  mobileScreenshot : String

/-- `analyzeSingleWebsite` (index.js 171–213) with the page work abstracted
into `run`: a rejection anywhere (navigation, extraction, screenshots)
propagates; on success the record is the core data with `url` set to the
argument, exactly as the return statement builds it. -/
def analyzeSingleWebsite (run : String → Except Unit AnalysisCore)
    (url : String) : Except Unit AnalysisData :=
  match run url with
  | .error e => .error e
  | .ok c =>
    .ok { url := url
          websiteName := c.websiteName
          websiteType := c.websiteType
          categories := c.categories
          tags := c.tags
          relatedPhrases := c.relatedPhrases
          colors := c.colors
          fonts := c.fonts
          desktopScreenshot := c.desktopScreenshot
          mobileScreenshot := c.mobileScreenshot }

/-- JavaScript reads `req.body.url`; a missing field is `undefined`, which
the `URL` constructor stringifies to `"undefined"`. -/
def jsUrlField : Option String → String
  | none => "undefined"
  | some s => s

/-- Response and resource trace of one `/analyze` request. -/
structure AnalyzeTrace where
  status : Nat
  launched : Bool
  closed : Bool
  screenshotsWritten : List String

/-- `POST /analyze` of index.js (217–240). Validation runs before
`ensureDir` and `puppeteer.launch`; `launchOk` abstracts whether the
launch succeeds (a failing launch leaves `browser` undefined, so the
`finally` clause skips `close`); `failShots` is whatever screenshot files a
failing run had already written before rejecting. -/
def analyzeHandler (launchOk : Bool) (run : String → Except Unit AnalysisCore)
    (failShots : List String) (body : Option String) : AnalyzeTrace :=
  if !(isValidUrl (jsUrlField body)) then
    { status := 400, launched := false, closed := false,
      screenshotsWritten := [] }
  else if !launchOk then
    { status := 500, launched := false, closed := false,
      screenshotsWritten := [] }
  else
    match analyzeSingleWebsite run (jsUrlField body) with
    | .ok d =>
      { status := 200, launched := true, closed := true,
        screenshotsWritten := [d.desktopScreenshot, d.mobileScreenshot] }
    | .error _ =>
      { status := 500, launched := true, closed := true,
        screenshotsWritten := failShots }

/-- One element of the `results` array of `/analyze/bulk`, with one
optional field per key the handler may or may not set. -/
structure BulkEntry where
  url : Option String
  success : Bool
  error : Option String
  data : Option AnalysisData

/-- One iteration of the bulk loop (index.js 261–273): an invalid URL or a
failed analysis pushes `{ url, success: false, error }` and the loop
continues; a successful analysis pushes `{ success: true, data }` with no
top-level `url`. -/
def bulkEntry (run : String → Except Unit AnalysisCore) (u : String) :
    BulkEntry :=
  if !(isValidUrl u) then
    { url := some u, success := false, error := some "Invalid URL",
      data := none }
  else
    match analyzeSingleWebsite run u with
    | .ok d => { url := none, success := true, error := none, data := some d }
    | .error _ =>
      { url := some u, success := false, error := some "Analysis failed",
        data := none }

/-- The `results` array after the whole loop: one entry per input URL. -/
def bulkResultsList (run : String → Except Unit AnalysisCore)
    (urls : List String) : List BulkEntry :=
  urls.map (bulkEntry run)

/-- Response of `/analyze/bulk`. -/
inductive BulkResponse where
  | badRequest (message : String)
  | serverError (message : String)
  | ok (total : Nat) (success : Nat) (failed : Nat) (results : List BulkEntry)

/-- Response and resource trace of one `/analyze/bulk` request. -/
structure BulkTrace where
  response : BulkResponse
  launched : Bool
  closed : Bool

/-- `POST /analyze/bulk` of index.js (244–287). `body = none` models a
missing or non-array `urls` field. Per-URL failures are caught inside the
loop; only a launch failure reaches the outer `catch`, in which case
`browser` was never assigned and the `finally` clause skips `close`. -/
def bulkHandler (launchOk : Bool) (run : String → Except Unit AnalysisCore)
    (body : Option (List String)) : BulkTrace :=
  match body with
  | none =>
    { response := .badRequest "URLs array required", launched := false,
      closed := false }
  | some urls =>
    if urls.isEmpty then
      { response := .badRequest "URLs array required", launched := false,
        closed := false }
    else if !launchOk then
      { response := .serverError "Bulk analysis failed", launched := false,
        closed := false }
    else
      let results := bulkResultsList run urls
      { response := .ok urls.length
          (results.filter (fun r => r.success)).length
          (results.filter (fun r => !r.success)).length
          results
        launched := true
        closed := true }

/-- A submission body: the two validated fields plus the rest of the
arbitrary JSON record. A `none` field is absent; `some ""` is present but
empty (and JavaScript-falsy). -/
structure SubmitRecord where
  url : Option String
  websiteName : Option String
  rest : List (String × String)

/-- JavaScript truthiness of a string-or-absent field: `undefined` and the
empty string are falsy. -/
def jsTruthy : Option String → Bool
  | none => false
  | some s => !(s == "")

/-- `POST /submit` (index.js 291–303; part_001 174–185 is identical):
reject with 400 when `!data.url || !data.websiteName`, otherwise append
the record to the submission log and answer 200. -/
def submitHandler (log : List SubmitRecord) (data : SubmitRecord) :
    Nat × List SubmitRecord :=
  if !(jsTruthy data.url) || !(jsTruthy data.websiteName) then (400, log)
  else (200, log ++ [data])

/-! ## The part_000 `/analyze` handler (C7, C9)

The richest of the three routes (part_000 lines 319–429): desktop pass
(screenshot, category, colors, fonts, tags), then mobile pass, with
per-step warnings. Browser steps that can reject are oracles; the
conversion `rawColors.map(rgbToHex)` runs on the server outside every
`try`, so a throw there reaches the outer `catch`. -/

/-- Outcomes of the browser-facing steps of one part_000 `/analyze` run. -/
structure P0Oracles where
  launchOk : Bool
  desktopNavOk : Bool
  desktopShotOk : Bool
  titleBody : Except Unit (String × String)
  styleReads : Except Unit (List String)
  fontsEval : Except Unit (List String)
  tagsEval : Except Unit (List String)
  mobileNavOk : Bool
  mobileShotOk : Bool

/-- Response of the part_000 `/analyze` route. -/
inductive P0Response where
  | badRequest
  | serverError
  | ok (statusLabel : String) (category : String)
      (colors fonts fontTypes tags : List String)
      (desktop mobile : String) (warnings : List String)

/-- Response and resource trace of one part_000 `/analyze` request. -/
structure P0Trace where
  response : P0Response
  launched : Bool
  closed : Bool
  screenshotsWritten : List String

namespace Part000

/-- The warnings array after both screenshot attempts: the desktop warning
(line 364) precedes the mobile warning (line 402). -/
def p0warnings (o : P0Oracles) : List String :=
  (if o.desktopShotOk then []
   else ["Desktop screenshot was partially captured."]) ++
  (if o.mobileShotOk then []
   else ["Mobile screenshot could not be fully generated."])

/-- `POST /analyze` of part_000 (319–429). The guard is
`!url || !isValidUrl(url)` (an absent or empty `url` is falsy); it runs
before `ensureDir` and `puppeteer.launch`. Screenshot failures only append
warnings; category/colors/fonts/tags evaluation failures are absorbed by
their extractors; a `goto` rejection or a throw from the server-side
`rgbToHex` conversion reaches the outer `catch` (500). The `finally`
clause closes the browser whenever `browser` was assigned. -/
def analyzeHandler (o : P0Oracles) (desktopFile mobileFile : String)
    (body : Option String) : P0Trace :=
  if (match body with
      | none => true
      | some u => u == "" || !(isValidUrl u)) then
    { response := .badRequest, launched := false, closed := false,
      screenshotsWritten := [] }
  else if !o.launchOk then
    { response := .serverError, launched := false, closed := false,
      screenshotsWritten := [] }
  else if !o.desktopNavOk then
    { response := .serverError, launched := true, closed := true,
      screenshotsWritten := [] }
  else
    match (extractCSSColors (o.styleReads.map cssColorCapture)).mapM
        rgbToHex with
    | .error _ =>
      { response := .serverError, launched := true, closed := true,
        screenshotsWritten := if o.desktopShotOk then [desktopFile] else [] }
    | .ok hexes =>
      if !o.mobileNavOk then
        { response := .serverError, launched := true, closed := true,
          screenshotsWritten :=
            if o.desktopShotOk then [desktopFile] else [] }
      else
        { response := .ok
            (if (p0warnings o).isEmpty then "success" else "partial_success")
            (extractCategory (o.titleBody.map
              (fun p => categoryLoop part000Rules (pageText p.1 p.2 3000))))
            ((hexes.filterMap id).take 30)
            (extractFonts o.fontsEval)
            (classifyFontTypes (extractFonts o.fontsEval))
            (extractTags o.tagsEval)
            desktopFile mobileFile (p0warnings o)
          launched := true
          closed := true
          screenshotsWritten :=
            (if o.desktopShotOk then [desktopFile] else []) ++
            (if o.mobileShotOk then [mobileFile] else []) }

end Part000

/-! ## Spec-side helper definitions used in the statements -/

/-- A captured color string is a pure `rgb(r, g, b)` triple: exactly three
digit runs, each at most 255. -/
def isRgbTriple (s : String) : Bool :=
  match digitRuns s with
  | [r, g, b] => r ≤ 255 && g ≤ 255 && b ≤ 255
  | _ => false

/-- The hex color the spec describes for a triple: `#` followed by the
three two-digit zero-padded lowercase hex components. -/
def hexColorOfTriple (r g b : Nat) : String :=
  "#" ++ String.join ([r, g, b].map jsHexByte)

/-- A well-formed scheme: non-empty, first character an ASCII letter,
every character a scheme character. -/
def isValidScheme (sch : List Char) : Bool :=
  match sch with
  | [] => false
  | c :: _ => c.isAlpha && sch.all URLModel.isSchemeChar

/-- The shape C1 asserts of one output entry: a seven-character `#rrggbb`
string whose components are the digit runs of some captured style string,
zero-padded to two lowercase hex digits each. -/
def hexFromCapturedTriple (styles : List String) (h : String) : Prop :=
  ∃ s ∈ styles, ∃ r g b, digitRuns s = [r, g, b] ∧
    r ≤ 255 ∧ g ≤ 255 ∧ b ≤ 255 ∧ h = hexColorOfTriple r g b ∧
    h.length = 7

/-- `categoryScores` generalized over an arbitrary rule table, for the
induction relating the sort-based selection of `index.js` to the
first-maximum characterization. -/
def categoryScoresOf (rules : List CategoryRule) (text : String) :
    List ScoredLabel :=
  rules.filterMap (fun rule =>
    if ruleScore text rule.keywords > 0 then
      some ⟨rule.label, ruleScore text rule.keywords⟩
    else none)

/-- First maximum of a scored list, preferring earlier entries on ties:
the element the head of the stable descending sort must be. -/
def pickMax (x : ScoredLabel) : List ScoredLabel → ScoredLabel
  | [] => x
  | y :: t => pickMax (if y.score > x.score then y else x) t

/-! ## Theorems

Shared lemmas first, then one theorem (plus witness or counterexample) per
claim. -/

theorem mem_setAdd {x y : String} {acc : List String} :
    x ∈ setAdd acc y ↔ x ∈ acc ∨ x = y := by
  unfold setAdd
  split
  · rename_i h
    have hy : y ∈ acc := by
      simpa [List.contains] using h
    constructor
    · exact Or.inl
    · rintro (hx | rfl)
      · exact hx
      · exact hy
  · simp [List.mem_append]

theorem mem_foldl_setAdd {x : String} (l : List String) :
    ∀ acc, x ∈ l.foldl setAdd acc ↔ x ∈ acc ∨ x ∈ l := by
  induction l with
  | nil => simp
  | cons y t ih =>
    intro acc
    rw [List.foldl_cons, ih, mem_setAdd]
    simp [List.mem_cons]
    tauto

theorem mem_setOfList {x : String} {l : List String} :
    x ∈ setOfList l ↔ x ∈ l := by
  unfold setOfList
  rw [mem_foldl_setAdd]
  simp

theorem mapM_option_total {α β : Type} (f : α → Option β) (l : List α)
    (h : ∀ a ∈ l, (f a).isSome) :
    ∃ out, l.mapM f = some out ∧ out.length = l.length ∧
      ∀ b ∈ out, ∃ a ∈ l, f a = some b := by
  induction l with
  | nil => exact ⟨[], rfl, rfl, by simp⟩
  | cons x t ih =>
    obtain ⟨b, hb⟩ := Option.isSome_iff_exists.mp (h x (List.mem_cons_self x t))
    obtain ⟨out, hout, hlen, hmem⟩ :=
      ih (fun a ha => h a (List.mem_cons_of_mem _ ha))
    refine ⟨b :: out, ?_, by simp [hlen], ?_⟩
    · rw [List.mapM_cons, hb, hout]; rfl
    · intro c hc
      rcases List.mem_cons.mp hc with rfl | hc2
      · exact ⟨x, List.mem_cons_self x t, hb⟩
      · obtain ⟨a, ha, hfa⟩ := hmem c hc2
        exact ⟨a, List.mem_cons_of_mem _ ha, hfa⟩

theorem mapM_except_total {α β : Type} (f : α → Except Unit β) (l : List α)
    (h : ∀ a ∈ l, ∃ b, f a = .ok b) :
    ∃ out, l.mapM f = .ok out ∧ out.length = l.length ∧
      ∀ b ∈ out, ∃ a ∈ l, f a = .ok b := by
  induction l with
  | nil => exact ⟨[], rfl, rfl, by simp⟩
  | cons x t ih =>
    obtain ⟨b, hb⟩ := h x (List.mem_cons_self x t)
    obtain ⟨out, hout, hlen, hmem⟩ :=
      ih (fun a ha => h a (List.mem_cons_of_mem _ ha))
    refine ⟨b :: out, ?_, by simp [hlen], ?_⟩
    · rw [List.mapM_cons, hb, hout]; rfl
    · intro c hc
      rcases List.mem_cons.mp hc with rfl | hc2
      · exact ⟨x, List.mem_cons_self x t, hb⟩
      · obtain ⟨a, ha, hfa⟩ := hmem c hc2
        exact ⟨a, List.mem_cons_of_mem _ ha, hfa⟩

set_option maxRecDepth 4096 in
theorem jsHexByte_length {n : Nat} (h : n ≤ 255) : (jsHexByte n).length = 2 := by
  have hall : ∀ m, m < 256 → (jsHexByte m).length = 2 := by decide
  exact hall n (Nat.lt_succ_of_le h)

theorem hexColorOfTriple_length {r g b : Nat}
    (hr : r ≤ 255) (hg : g ≤ 255) (hb : b ≤ 255) :
    (hexColorOfTriple r g b).length = 7 := by
  have h1 : ("#" : String).length = 1 := rfl
  simp [hexColorOfTriple, String.join, String.length_append, h1,
    jsHexByte_length hr, jsHexByte_length hg, jsHexByte_length hb]

theorem isRgbTriple_spec {s : String} (h : isRgbTriple s = true) :
    ∃ r g b, digitRuns s = [r, g, b] ∧ r ≤ 255 ∧ g ≤ 255 ∧ b ≤ 255 := by
  unfold isRgbTriple at h
  split at h
  · rename_i r g b heq
    simp only [Bool.and_eq_true, decide_eq_true_eq] at h
    exact ⟨r, g, b, heq, h.1.1, h.1.2, h.2⟩
  · exact absurd h (by simp)

theorem rgbToHexJoin_triple {s : String} {r g b : Nat}
    (hd : digitRuns s = [r, g, b]) :
    rgbToHexJoin s = some (hexColorOfTriple r g b) := by
  unfold rgbToHexJoin hexColorOfTriple
  rw [hd]

theorem rgbToHex_triple000 {s : String} {r g b : Nat}
    (hd : digitRuns s = [r, g, b]) :
    Part000.rgbToHex s = .ok (some (hexColorOfTriple r g b)) := by
  unfold Part000.rgbToHex hexColorOfTriple
  rw [hd]

theorem mapM_rgbJoin_good (L styles : List String)
    (hsub : ∀ a ∈ L, a ∈ styles ∧ isRgbTriple a = true) :
    ∃ out, L.mapM rgbToHexJoin = some out ∧ out.length = L.length ∧
      ∀ h ∈ out, hexFromCapturedTriple styles h := by
  obtain ⟨out, hout, hlen, hmem⟩ := mapM_option_total rgbToHexJoin L (by
    intro a ha
    obtain ⟨r, g, b, hd, _, _, _⟩ := isRgbTriple_spec (hsub a ha).2
    rw [rgbToHexJoin_triple hd]
    rfl)
  refine ⟨out, hout, hlen, ?_⟩
  intro h hh
  obtain ⟨a, ha, hfa⟩ := hmem h hh
  obtain ⟨hasty, htr⟩ := hsub a ha
  obtain ⟨r, g, b, hd, hr, hg, hb⟩ := isRgbTriple_spec htr
  rw [rgbToHexJoin_triple hd] at hfa
  obtain rfl : hexColorOfTriple r g b = h := by injection hfa
  exact ⟨a, hasty, r, g, b, hd, hr, hg, hb, rfl,
    hexColorOfTriple_length hr hg hb⟩

/-- C1 (amended): provided every captured style string that starts with
`"rgb"` is a pure `rgb(r, g, b)` triple with components at most 255, each
of the three color pipelines succeeds, every output entry is the
7-character `#rrggbb` string obtained from the digit runs of a captured
string by two-digit zero-padded hex conversion, and the output length
never exceeds the configured cap (25 in index.js, 30 in part_000, 20 in
part_001). The restriction to pure triples is forced: `rgba(...)` strings
also pass the `startsWith("rgb")` capture filter of index.js and part_001,
and their conversion concatenates more than three components. -/
theorem colorPipelines_hex_and_cap (styles : List String)
    (hgood : ∀ s ∈ styles, jsStartsWith s "rgb" = true →
      isRgbTriple s = true) :
    (∃ out, Index.extractColors styles = some out ∧ out.length ≤ 25 ∧
      ∀ h ∈ out, hexFromCapturedTriple styles h) ∧
    (∃ out, Part000.colorsPipeline styles = .ok out ∧ out.length ≤ 30 ∧
      ∀ h ∈ out, hexFromCapturedTriple styles h) ∧
    (∃ out, Part001.colorsEval styles = some out ∧ out.length ≤ 20 ∧
      ∀ h ∈ out, hexFromCapturedTriple styles h) := by
  refine ⟨?_, ?_, ?_⟩
  · -- index.js
    have hsub : ∀ a ∈ (setOfList (styles.filter
        (fun c => jsStartsWith c "rgb"))).take 25,
        a ∈ styles ∧ isRgbTriple a = true := by
      intro a ha
      have ha2 := List.mem_filter.mp
        (mem_setOfList.mp (List.take_subset _ _ ha))
      exact ⟨ha2.1, hgood a ha2.1 ha2.2⟩
    obtain ⟨out, hout, hlen, hmem⟩ := mapM_rgbJoin_good _ styles hsub
    refine ⟨out, hout, ?_, hmem⟩
    rw [hlen]
    exact (List.length_take _ _).le.trans (Nat.min_le_left _ _)
  · -- part_000
    have hsub : ∀ a ∈ Part000.cssColorCapture styles,
        a ∈ styles ∧ isRgbTriple a = true := by
      intro a ha
      have ha2 := List.mem_filter.mp
        (mem_setOfList.mp (by exact ha))
      have := ha2.2
      simp only [Bool.and_eq_true] at this
      exact ⟨ha2.1, hgood a ha2.1 this.2⟩
    obtain ⟨hexes, hhex, _, hmem⟩ :=
      mapM_except_total Part000.rgbToHex (Part000.cssColorCapture styles) (by
        intro a ha
        obtain ⟨r, g, b, hd, _, _, _⟩ := isRgbTriple_spec (hsub a ha).2
        exact ⟨some (hexColorOfTriple r g b), rgbToHex_triple000 hd⟩)
    refine ⟨(hexes.filterMap id).take 30, ?_, ?_, ?_⟩
    · unfold Part000.colorsPipeline
      rw [hhex]
      rfl
    · exact (List.length_take _ _).le.trans (Nat.min_le_left _ _)
    · intro h hh
      have hfm := List.take_subset _ _ hh
      obtain ⟨o, ho, hid⟩ := List.mem_filterMap.mp hfm
      obtain ⟨a, ha, hfa⟩ := hmem o ho
      obtain ⟨hasty, htr⟩ := hsub a ha
      obtain ⟨r, g, b, hd, hr, hg, hb⟩ := isRgbTriple_spec htr
      rw [rgbToHex_triple000 hd] at hfa
      have : o = some (hexColorOfTriple r g b) := by
        injection hfa.symm
      subst this
      obtain rfl : hexColorOfTriple r g b = h := by injection hid
      exact ⟨a, hasty, r, g, b, hd, hr, hg, hb, rfl,
        hexColorOfTriple_length hr hg hb⟩
  · -- part_001
    have hsub : ∀ a ∈ ((setOfList (styles.filter
        (fun c => !(c == "")))).filter
          (fun c => jsStartsWith c "rgb")).take 20,
        a ∈ styles ∧ isRgbTriple a = true := by
      intro a ha
      have ha2 := List.mem_filter.mp (List.take_subset _ _ ha)
      have ha3 := List.mem_filter.mp (mem_setOfList.mp ha2.1)
      exact ⟨ha3.1, hgood a ha3.1 ha2.2⟩
    obtain ⟨out, hout, hlen, hmem⟩ := mapM_rgbJoin_good _ styles hsub
    refine ⟨out, hout, ?_, hmem⟩
    rw [hlen]
    exact (List.length_take _ _).le.trans (Nat.min_le_left _ _)

/-- C1 counterexample: the default computed `backgroundColor` of a
transparent element, `"rgba(0, 0, 0, 0)"`, passes the `startsWith("rgb")`
capture filter of `extractColors` in index.js, and its conversion joins
four zero-padded components: the output entry `#00000000` has eight hex
digits, not six. -/
theorem extractColors_rgba_counterexample :
    jsStartsWith "rgba(0, 0, 0, 0)" "rgb" = true ∧
    Index.extractColors ["rgba(0, 0, 0, 0)"] = some ["#00000000"] ∧
    ("#00000000" : String).length ≠ 7 := by
  exact ⟨rfl, rfl, by decide⟩

/-- C1 witness: the amended theorem evaluated at a concrete capture list
containing one well-formed triple per pipeline filter. -/
theorem colorPipelines_hex_and_cap_witness :
    (∃ out, Index.extractColors ["rgb(255, 87, 51)", "plain"] = some out ∧
      out.length ≤ 25 ∧
      ∀ h ∈ out, hexFromCapturedTriple ["rgb(255, 87, 51)", "plain"] h) ∧
    (∃ out, Part000.colorsPipeline ["rgb(255, 87, 51)", "plain"] = .ok out ∧
      out.length ≤ 30 ∧
      ∀ h ∈ out, hexFromCapturedTriple ["rgb(255, 87, 51)", "plain"] h) ∧
    (∃ out, Part001.colorsEval ["rgb(255, 87, 51)", "plain"] = some out ∧
      out.length ≤ 20 ∧
      ∀ h ∈ out, hexFromCapturedTriple ["rgb(255, 87, 51)", "plain"] h) :=
  colorPipelines_hex_and_cap ["rgb(255, 87, 51)", "plain"] (by decide)

/-- C4 (amended): the four part_000 extractors (`extractCSSColors`,
`extractFonts`, `extractTags`, `extractCategory`) catch any evaluation
failure and return the empty list or the `"Unknown"` default, and pass a
successful evaluation through unchanged. The index.js extractors do not
(see the counterexample): their failures propagate to the route handler,
which answers 500. -/
theorem part000Extractors_catch :
    (∀ e : Unit, Part000.extractCSSColors (.error e) = [] ∧
      Part000.extractFonts (.error e) = [] ∧
      Part000.extractTags (.error e) = [] ∧
      Part000.extractCategory (.error e) = "Unknown") ∧
    (∀ v : List String, Part000.extractCSSColors (.ok v) = v ∧
      Part000.extractFonts (.ok v) = v ∧ Part000.extractTags (.ok v) = v) ∧
    (∀ s : String, Part000.extractCategory (.ok s) = s) :=
  ⟨fun _ => ⟨rfl, rfl, rfl, rfl⟩, fun _ => ⟨rfl, rfl, rfl⟩, fun _ => rfl⟩

/-- C4 counterexample: the index.js extractors have no `try/catch`; a
rejected evaluation is handed back to the caller as the failure itself,
not as an empty or default result. -/
theorem indexExtractors_propagate :
    Index.extractColorsCall (.error ()) = .error () ∧
    Index.extractFontsCall (.error ()) = .error () ∧
    Index.extractWebsiteIntelligenceCall (.error ()) = .error () :=
  ⟨rfl, rfl, rfl⟩

theorem filter_length_split {α : Type} (p : α → Bool) (l : List α) :
    (l.filter p).length + (l.filter (fun a => !(p a))).length = l.length := by
  induction l with
  | nil => rfl
  | cons x t ih =>
    by_cases h : p x <;> simp [List.filter_cons, h, ← ih] <;> omega

/-- C5: for a non-empty URL list processed with a working browser launch,
the bulk response satisfies `total = success + failed = length(results)`,
and every input URL contributes exactly one entry (`results` has exactly
one entry per URL, whether it was invalid, failed or succeeded). -/
theorem bulk_counts (run : String → Except Unit AnalysisCore)
    (urls : List String) (hne : urls ≠ []) :
    ∃ succ failed results,
      (bulkHandler true run (some urls)).response
        = .ok urls.length succ failed results ∧
      urls.length = succ + failed ∧
      results.length = urls.length ∧
      results = bulkResultsList run urls := by
  have hempty : urls.isEmpty = false := by
    cases urls
    · exact absurd rfl hne
    · rfl
  refine ⟨((bulkResultsList run urls).filter
      (fun (r : BulkEntry) => r.success)).length,
    ((bulkResultsList run urls).filter
      (fun (r : BulkEntry) => !r.success)).length,
    bulkResultsList run urls, ?_, ?_, ?_, rfl⟩
  · unfold bulkHandler
    simp [hempty]
  · have hlen : (bulkResultsList run urls).length = urls.length := by
      unfold bulkResultsList
      exact List.length_map _ _
    rw [← hlen]
    exact (filter_length_split (fun (r : BulkEntry) => r.success) _).symm
  · unfold bulkResultsList
    exact List.length_map _ _

/-- C5 witness: a two-URL batch, one invalid and one failing, still
answers with matching counts. -/
theorem bulk_counts_witness :
    ∃ succ failed results,
      (bulkHandler true (fun _ => .error ())
        (some ["not a url", "https://example.com"])).response
        = .ok (["not a url", "https://example.com"].length) succ failed
            results ∧
      (["not a url", "https://example.com"].length) = succ + failed ∧
      results.length = ["not a url", "https://example.com"].length ∧
      results = bulkResultsList (fun _ => .error ())
        ["not a url", "https://example.com"] :=
  bulk_counts (fun _ => .error ()) ["not a url", "https://example.com"]
    (by simp)

/-- C6: font bucketing is total and deterministic: every name maps to one
of the three buckets; a name containing `"mono"` (case-insensitively, via
the lowercasing the code applies first) maps to `"monospace"`; a name
containing `"serif"` but not `"sans"` (and no `"mono"`) maps to
`"serif"`; anything else maps to `"sans-serif"`; and the bucket of every
listed font appears in the `classifyFontTypes` output. -/
theorem classifyFont_cases (f : String) :
    (classifyFont f = "monospace" ∨ classifyFont f = "serif" ∨
      classifyFont f = "sans-serif") ∧
    (jsIncludes (jsToLower f) "mono" = true →
      classifyFont f = "monospace") ∧
    (jsIncludes (jsToLower f) "mono" = false →
      jsIncludes (jsToLower f) "serif" = true →
      jsIncludes (jsToLower f) "sans" = false →
      classifyFont f = "serif") ∧
    (jsIncludes (jsToLower f) "mono" = false →
      (jsIncludes (jsToLower f) "serif" = false ∨
        jsIncludes (jsToLower f) "sans" = true) →
      classifyFont f = "sans-serif") ∧
    (∀ fonts, f ∈ fonts → classifyFont f ∈ classifyFontTypes fonts) := by
  have hmono : jsIncludes (jsToLower f) "mono" = true →
      classifyFont f = "monospace" := by
    intro h1
    simp [classifyFont, h1]
  have hserif : jsIncludes (jsToLower f) "mono" = false →
      jsIncludes (jsToLower f) "serif" = true →
      jsIncludes (jsToLower f) "sans" = false →
      classifyFont f = "serif" := by
    intro h1 h2 h3
    simp [classifyFont, h1, h2, h3]
  have hsans : jsIncludes (jsToLower f) "mono" = false →
      (jsIncludes (jsToLower f) "serif" = false ∨
        jsIncludes (jsToLower f) "sans" = true) →
      classifyFont f = "sans-serif" := by
    intro h1 h2
    rcases h2 with h2 | h2 <;> simp [classifyFont, h1, h2]
  refine ⟨?_, hmono, hserif, hsans, ?_⟩
  · cases h1 : jsIncludes (jsToLower f) "mono" with
    | true => exact Or.inl (hmono h1)
    | false =>
      cases h2 : jsIncludes (jsToLower f) "serif" with
      | false => exact Or.inr (Or.inr (hsans h1 (Or.inl h2)))
      | true =>
        cases h3 : jsIncludes (jsToLower f) "sans" with
        | false => exact Or.inr (Or.inl (hserif h1 h2 h3))
        | true => exact Or.inr (Or.inr (hsans h1 (Or.inr h3)))
  · intro fonts hf
    unfold classifyFontTypes
    exact mem_setOfList.mpr (List.mem_map_of_mem _ hf)

/-- C6 witness: the three buckets at concrete font names, and membership
of a bucket in the output list. -/
theorem classifyFont_cases_witness :
    classifyFont "JetBrains Mono" = "monospace" ∧
    classifyFont "PT Serif" = "serif" ∧
    classifyFont "Open Sans" = "sans-serif" ∧
    classifyFont "Open Sans" ∈ classifyFontTypes ["Open Sans"] :=
  ⟨(classifyFont_cases "JetBrains Mono").2.1 (by rfl),
   (classifyFont_cases "PT Serif").2.2.1 (by rfl) (by rfl) (by rfl),
   (classifyFont_cases "Open Sans").2.2.2.1 (by rfl) (Or.inl (by rfl)),
   (classifyFont_cases "Open Sans").2.2.2.2 ["Open Sans"] (by simp)⟩

/-- C7: an `/analyze` body that omits `url` (JavaScript reads `undefined`,
which stringifies to the invalid URL `"undefined"`; part_000 additionally
short-circuits on falsiness) or carries a string failing validation gets a
400 response with no browser launch and no screenshot file, in both
index.js and part_000. -/
theorem analyze_invalid_no_browser (launchOk : Bool)
    (run : String → Except Unit AnalysisCore) (failShots : List String)
    (o : P0Oracles) (d m : String) :
    (analyzeHandler launchOk run failShots none =
      { status := 400, launched := false, closed := false,
        screenshotsWritten := [] }) ∧
    (∀ u, isValidUrl u = false →
      analyzeHandler launchOk run failShots (some u) =
        { status := 400, launched := false, closed := false,
          screenshotsWritten := [] }) ∧
    (Part000.analyzeHandler o d m none =
      { response := .badRequest, launched := false, closed := false,
        screenshotsWritten := [] }) ∧
    (∀ u, isValidUrl u = false →
      Part000.analyzeHandler o d m (some u) =
        { response := .badRequest, launched := false, closed := false,
          screenshotsWritten := [] }) := by
  refine ⟨?_, ?_, ?_, ?_⟩
  · have hinv : isValidUrl (jsUrlField none) = false := by rfl
    unfold analyzeHandler
    rw [hinv]
    rfl
  · intro u hu
    have hinv : isValidUrl (jsUrlField (some u)) = false := hu
    unfold analyzeHandler
    rw [hinv]
    rfl
  · unfold Part000.analyzeHandler
    rfl
  · intro u hu
    unfold Part000.analyzeHandler
    simp [hu]

/-- C7 witness: the theorem at a concrete configuration and the concrete
malformed string of the spec. -/
theorem analyze_invalid_no_browser_witness :
    analyzeHandler true (fun _ => .error ()) [] (some "not a url") =
      { status := 400, launched := false, closed := false,
        screenshotsWritten := [] } ∧
    Part000.analyzeHandler
      ⟨true, true, true, .ok ("", ""), .ok [], .ok [], .ok [], true, true⟩
      "d.webp" "m.webp" (some "not a url") =
      { response := .badRequest, launched := false, closed := false,
        screenshotsWritten := [] } :=
  ⟨(analyze_invalid_no_browser true (fun _ => .error ()) []
      ⟨true, true, true, .ok ("", ""), .ok [], .ok [], .ok [], true, true⟩
      "d.webp" "m.webp").2.1 "not a url" (by rfl),
   (analyze_invalid_no_browser true (fun _ => .error ()) []
      ⟨true, true, true, .ok ("", ""), .ok [], .ok [], .ok [], true, true⟩
      "d.webp" "m.webp").2.2.2 "not a url" (by rfl)⟩

/-- C8 counterexample: a `/submit` body whose `url` field is present but
the empty string is rejected with 400, although neither required field is
absent — the check is JavaScript truthiness, not presence. -/
theorem submit_empty_url_counterexample :
    (submitHandler []
      { url := some "", websiteName := some "Example", rest := [] }).1
      = 400 ∧
    ({ url := some "", websiteName := some "Example", rest := [] } :
      SubmitRecord).url ≠ none ∧
    ({ url := some "", websiteName := some "Example", rest := [] } :
      SubmitRecord).websiteName ≠ none := by
  refine ⟨rfl, by simp, by simp⟩

/-- C8 (amended): the handler answers 400 exactly when `url` or
`websiteName` is absent **or the empty string** (JavaScript-falsy);
otherwise — the only validation applied — it appends the record to the
submission log and answers 200. -/
theorem submit_validation (log : List SubmitRecord) (data : SubmitRecord) :
    ((submitHandler log data).1 = 400 ↔
      (data.url = none ∨ data.url = some "" ∨ data.websiteName = none ∨
        data.websiteName = some "")) ∧
    ((submitHandler log data).1 = 400 → (submitHandler log data).2 = log) ∧
    ((submitHandler log data).1 ≠ 400 →
      submitHandler log data = (200, log ++ [data])) := by
  rcases data with ⟨u, w, rest⟩
  rcases u with _ | u
  · refine ⟨by simp [submitHandler, jsTruthy], by
      simp [submitHandler, jsTruthy], by simp [submitHandler, jsTruthy]⟩
  · rcases w with _ | w
    · refine ⟨by simp [submitHandler, jsTruthy], by
        simp [submitHandler, jsTruthy], by simp [submitHandler, jsTruthy]⟩
    · by_cases hu : u = ""
      · subst hu
        refine ⟨by simp [submitHandler, jsTruthy], by
          simp [submitHandler, jsTruthy], by simp [submitHandler, jsTruthy]⟩
      · by_cases hw : w = ""
        · subst hw
          refine ⟨by simp [submitHandler, jsTruthy, hu], by
            simp [submitHandler, jsTruthy, hu], by
            simp [submitHandler, jsTruthy, hu]⟩
        · refine ⟨by simp [submitHandler, jsTruthy, hu, hw], by
            simp [submitHandler, jsTruthy, hu, hw], by
            simp [submitHandler, jsTruthy, hu, hw]⟩

/-- C8 witness: a record with both fields non-empty is appended with 200;
one with `websiteName` absent is rejected and leaves the log unchanged. -/
theorem submit_validation_witness :
    submitHandler []
      { url := some "https://example.com", websiteName := some "Example",
        rest := [] } =
      (200,
        [{ url := some "https://example.com",
           websiteName := some "Example", rest := [] }]) ∧
    (submitHandler []
      { url := some "https://example.com", websiteName := none,
        rest := [] }).2 = [] :=
  ⟨by
    have h := (submit_validation []
      { url := some "https://example.com", websiteName := some "Example",
        rest := [] }).2.2 (by simp [submitHandler, jsTruthy])
    simpa using h,
   (submit_validation []
      { url := some "https://example.com", websiteName := none,
        rest := [] }).2.1 (by rfl)⟩

/-- C9: on every exit path of the three browser-using handlers — success,
per-step failure, navigation failure, server-side conversion throw — a
launched browser is closed by the `finally` clause before the handler
completes; an unlaunched one is never closed (nothing to leak). -/
theorem browser_always_closed (launchOk : Bool)
    (run : String → Except Unit AnalysisCore) (failShots : List String)
    (body1 : Option String) (bodyB : Option (List String))
    (o : P0Oracles) (d m : String) (body0 : Option String) :
    ((analyzeHandler launchOk run failShots body1).launched = true →
      (analyzeHandler launchOk run failShots body1).closed = true) ∧
    ((bulkHandler launchOk run bodyB).launched = true →
      (bulkHandler launchOk run bodyB).closed = true) ∧
    ((Part000.analyzeHandler o d m body0).launched = true →
      (Part000.analyzeHandler o d m body0).closed = true) := by
  refine ⟨?_, ?_, ?_⟩
  · have hcl : (analyzeHandler launchOk run failShots body1).closed =
        (analyzeHandler launchOk run failShots body1).launched := by
      unfold analyzeHandler
      split_ifs <;> try rfl
      cases analyzeSingleWebsite run (jsUrlField body1) <;> rfl
    intro h
    rw [hcl, h]
  · have hcl : (bulkHandler launchOk run bodyB).closed =
        (bulkHandler launchOk run bodyB).launched := by
      unfold bulkHandler
      cases bodyB with
      | none => rfl
      | some urls =>
        dsimp only
        split_ifs <;> rfl
    intro h
    rw [hcl, h]
  · have hcl : (Part000.analyzeHandler o d m body0).closed =
        (Part000.analyzeHandler o d m body0).launched := by
      unfold Part000.analyzeHandler
      split_ifs <;> try rfl
      all_goals (split <;> rfl)
    intro h
    rw [hcl, h]

/-- C9 witness: a successful single-URL run launches and closes; so does a
run whose analysis fails. -/
theorem browser_always_closed_witness :
    (analyzeHandler true
      (fun _ => .ok ⟨"n", "t", [], [], [], [], [], "d.webp", "m.webp"⟩) []
      (some "https://example.com")).closed = true ∧
    (analyzeHandler true (fun _ => .error ()) []
      (some "https://example.com")).closed = true :=
  ⟨(browser_always_closed true
      (fun _ => .ok ⟨"n", "t", [], [], [], [], [], "d.webp", "m.webp"⟩) []
      (some "https://example.com") none
      ⟨true, true, true, .ok ("", ""), .ok [], .ok [], .ok [], true, true⟩
      "d.webp" "m.webp" none).1 (by rfl),
   (browser_always_closed true (fun _ => .error ()) []
      (some "https://example.com") none
      ⟨true, true, true, .ok ("", ""), .ok [], .ok [], .ok [], true, true⟩
      "d.webp" "m.webp" none).1 (by rfl)⟩

theorem analyzeSingleWebsite_url {run : String → Except Unit AnalysisCore}
    {u : String} {d : AnalysisData}
    (h : analyzeSingleWebsite run u = .ok d) : d.url = u := by
  unfold analyzeSingleWebsite at h
  cases hr : run u with
  | error e => rw [hr] at h; cases h
  | ok c =>
    rw [hr] at h
    injection h with h2
    subst h2
    rfl

/-- C10: every entry of a bulk `results` array is asymmetric in shape: a
failure entry carries the top-level `url`, `success := false`, an error
string and no `data`; a success entry carries only `success := true` and
`data` — no top-level `url` and no `error` — with the URL present solely
inside `data`. -/
theorem bulk_results_shape (run : String → Except Unit AnalysisCore)
    (urls : List String) (e : BulkEntry)
    (he : e ∈ bulkResultsList run urls) :
    (e.success = true → e.url = none ∧ e.error = none ∧
      ∃ d, e.data = some d ∧ ∃ u ∈ urls, d.url = u) ∧
    (e.success = false → ∃ u ∈ urls, e.url = some u ∧
      e.data = none ∧ (e.error = some "Invalid URL" ∨
        e.error = some "Analysis failed")) := by
  unfold bulkResultsList at he
  obtain ⟨u, hu, rfl⟩ := List.mem_map.mp he
  unfold bulkEntry
  by_cases hv : isValidUrl u
  · rw [if_neg (by simp [hv])]
    cases hr : analyzeSingleWebsite run u with
    | ok dd =>
      exact ⟨fun _ => ⟨rfl, rfl, dd, rfl, u, hu, analyzeSingleWebsite_url hr⟩,
        fun hfalse => Bool.noConfusion hfalse⟩
    | error err =>
      exact ⟨fun htrue => Bool.noConfusion htrue,
        fun _ => ⟨u, hu, rfl, rfl, Or.inr rfl⟩⟩
  · rw [if_pos (by simp [hv])]
    exact ⟨fun htrue => Bool.noConfusion htrue,
      fun _ => ⟨u, hu, rfl, rfl, Or.inl rfl⟩⟩

/-- C10 witness: the failure entry of an invalid URL and the success entry
of an analyzed URL, evaluated concretely. -/
theorem bulk_results_shape_witness :
    (∃ u ∈ ["not a url"],
      (bulkEntry (fun _ => Except.error ()) "not a url").url = some u ∧
      (bulkEntry (fun _ => Except.error ()) "not a url").data = none ∧
      ((bulkEntry (fun _ => Except.error ()) "not a url").error =
          some "Invalid URL" ∨
        (bulkEntry (fun _ => Except.error ()) "not a url").error =
          some "Analysis failed")) ∧
    ((bulkEntry
        (fun _ => .ok ⟨"n", "t", [], [], [], [], [], "d.webp", "m.webp"⟩)
        "https://example.com").url = none ∧
      (bulkEntry
        (fun _ => .ok ⟨"n", "t", [], [], [], [], [], "d.webp", "m.webp"⟩)
        "https://example.com").error = none ∧
      ∃ d, (bulkEntry
        (fun _ => .ok ⟨"n", "t", [], [], [], [], [], "d.webp", "m.webp"⟩)
        "https://example.com").data = some d ∧
        ∃ u ∈ ["https://example.com"], d.url = u) :=
  ⟨(bulk_results_shape (fun _ => Except.error ()) ["not a url"]
      (bulkEntry (fun _ => Except.error ()) "not a url")
      (List.mem_map_of_mem _ (by simp))).2 (by rfl),
   (bulk_results_shape
      (fun _ => .ok ⟨"n", "t", [], [], [], [], [], "d.webp", "m.webp"⟩)
      ["https://example.com"]
      (bulkEntry
        (fun _ => .ok ⟨"n", "t", [], [], [], [], [], "d.webp", "m.webp"⟩)
        "https://example.com")
      (List.mem_map_of_mem _ (by simp))).1 (by rfl)⟩

theorem maxRuleScore_cons (text : String) (r : String × List String)
    (rs : List (String × List String)) :
    maxRuleScore (r :: rs) text =
      Nat.max (ruleScore text r.2) (maxRuleScore rs text) := by
  simp [maxRuleScore]

theorem categoryFold_stay (text : String) :
    ∀ (rules : List (String × List String)) (bl : String) (bs : Nat),
      maxRuleScore rules text ≤ bs →
      rules.foldl
        (fun acc r =>
          if ruleScore text r.2 > acc.2 then (r.1, ruleScore text r.2)
          else acc) (bl, bs) = (bl, bs) := by
  intro rules
  induction rules with
  | nil => intro bl bs _; rfl
  | cons r rs ih =>
    intro bl bs hle
    rw [maxRuleScore_cons] at hle
    obtain ⟨h1, h2⟩ := Nat.max_le.mp hle
    rw [List.foldl_cons]
    have hs : ¬(ruleScore text r.2 > bs) := by omega
    rw [if_neg hs]
    exact ih bl bs h2

theorem categoryFold_firstMax (text : String) :
    ∀ (rules : List (String × List String)) (bl : String) (bs : Nat),
      bs < maxRuleScore rules text →
      ∃ rr, rules.find?
          (fun r => ruleScore text r.2 == maxRuleScore rules text) =
            some rr ∧
        rules.foldl
          (fun acc r =>
            if ruleScore text r.2 > acc.2 then (r.1, ruleScore text r.2)
            else acc) (bl, bs) = (rr.1, maxRuleScore rules text) := by
  intro rules
  induction rules with
  | nil =>
    intro bl bs h
    simp [maxRuleScore] at h
  | cons r rs ih =>
    intro bl bs hlt
    rw [maxRuleScore_cons] at hlt
    rw [maxRuleScore_cons, List.foldl_cons, List.find?_cons]
    by_cases hM : maxRuleScore rs text ≤ ruleScore text r.2
    · have hmax : Nat.max (ruleScore text r.2) (maxRuleScore rs text) =
          ruleScore text r.2 := Nat.max_eq_left hM
      rw [hmax] at hlt ⊢
      have hbs : bs < ruleScore text r.2 := hlt
      have hbeq : (ruleScore text r.2 == ruleScore text r.2) = true :=
        beq_self_eq_true _
      refine ⟨r, by rw [hbeq], ?_⟩
      rw [if_pos (by omega : ruleScore text r.2 > bs)]
      exact categoryFold_stay text rs r.1 (ruleScore text r.2) hM
    · push_neg at hM
      have hmax : Nat.max (ruleScore text r.2) (maxRuleScore rs text) =
          maxRuleScore rs text := Nat.max_eq_right (Nat.le_of_lt hM)
      rw [hmax] at hlt ⊢
      have hbeq : (ruleScore text r.2 == maxRuleScore rs text) = false := by
        simp only [beq_eq_false_iff_ne, ne_eq]
        omega
      by_cases hs : ruleScore text r.2 > bs
      · obtain ⟨rr, hfind, hfold⟩ := ih r.1 (ruleScore text r.2) hM
        refine ⟨rr, by rw [hbeq]; exact hfind, ?_⟩
        rw [if_pos hs]
        exact hfold
      · obtain ⟨rr, hfind, hfold⟩ := ih bl bs hlt
        refine ⟨rr, by rw [hbeq]; exact hfind, ?_⟩
        rw [if_neg hs]
        exact hfold

theorem categoryLoop_eq_specTopLabel (rules : List (String × List String))
    (text : String) :
    categoryLoop rules text = specTopLabel rules text := by
  unfold categoryLoop specTopLabel
  by_cases h : maxRuleScore rules text = 0
  · rw [if_pos h]
    rw [categoryFold_stay text rules "General Website" 0 (by omega)]
  · rw [if_neg h]
    obtain ⟨rr, hfind, hfold⟩ :=
      categoryFold_firstMax text rules "General Website" 0 (by omega)
    rw [hfold, hfind]

theorem specTopLabel_default_iff (rules : List (String × List String))
    (text : String) (hlab : ∀ r ∈ rules, r.1 ≠ "General Website") :
    (specTopLabel rules text = "General Website" ↔
      maxRuleScore rules text = 0) := by
  unfold specTopLabel
  by_cases h : maxRuleScore rules text = 0
  · simp [h]
  · rw [if_neg h]
    constructor
    · intro hEq
      obtain ⟨rr, hfind, _⟩ :=
        categoryFold_firstMax text rules "General Website" 0 (by omega)
      rw [hfind] at hEq
      exact absurd hEq (hlab rr (List.mem_of_find?_eq_some hfind))
    · intro h0
      exact absurd h0 h

theorem insertDesc_head (x : ScoredLabel) (l : List ScoredLabel) :
    (insertDesc x l).head? =
      some (match l.head? with
        | some y => if y.score > x.score then y else x
        | none => x) := by
  cases l with
  | nil => rfl
  | cons y t =>
    unfold insertDesc
    by_cases h : y.score > x.score <;> simp [h]

theorem pickMax_shift (t : List ScoredLabel) :
    ∀ x y : ScoredLabel,
      pickMax (if y.score > x.score then y else x) t =
        if (pickMax y t).score > x.score then pickMax y t else x := by
  induction t with
  | nil => intro x y; rfl
  | cons z t ih =>
    intro x y
    show pickMax
        (if z.score > (if y.score > x.score then y else x).score then z
         else (if y.score > x.score then y else x)) t =
      if (pickMax (if z.score > y.score then z else y) t).score > x.score
      then pickMax (if z.score > y.score then z else y) t else x
    rw [← ih x (if z.score > y.score then z else y)]
    congr 1
    split_ifs <;> first | rfl | omega

theorem sortDesc_head (l : List ScoredLabel) :
    ∀ x, (insertDesc x (sortByScoreDesc l)).head? = some (pickMax x l) := by
  induction l with
  | nil => intro x; rfl
  | cons y t ih =>
    intro x
    show (insertDesc x (insertDesc y (sortByScoreDesc t))).head? = _
    rw [insertDesc_head x (insertDesc y (sortByScoreDesc t)), ih y]
    show some (if (pickMax y t).score > x.score then pickMax y t else x) = _
    rw [← pickMax_shift t x y]
    rfl

theorem pickMax_mem (l : List ScoredLabel) :
    ∀ x, pickMax x l = x ∨ pickMax x l ∈ l := by
  induction l with
  | nil => intro x; exact Or.inl rfl
  | cons y t ih =>
    intro x
    show pickMax (if y.score > x.score then y else x) t = x ∨
      pickMax (if y.score > x.score then y else x) t ∈ y :: t
    rcases ih (if y.score > x.score then y else x) with h | h
    · rw [h]
      by_cases hc : y.score > x.score
      · rw [if_pos hc]
        exact Or.inr (List.mem_cons_self _ _)
      · rw [if_neg hc]
        exact Or.inl rfl
    · exact Or.inr (List.mem_cons_of_mem _ h)

theorem categoryScoresOf_cons (text : String) (r : CategoryRule)
    (rs : List CategoryRule) :
    categoryScoresOf (r :: rs) text =
      if ruleScore text r.keywords > 0 then
        ⟨r.label, ruleScore text r.keywords⟩ :: categoryScoresOf rs text
      else categoryScoresOf rs text := by
  unfold categoryScoresOf
  rw [List.filterMap_cons]
  by_cases h : ruleScore text r.keywords > 0 <;> simp [h]

theorem pickMax_cons (x y : ScoredLabel) (t : List ScoredLabel) :
    pickMax x (y :: t) = pickMax (if y.score > x.score then y else x) t :=
  rfl

theorem fold_from_scored (text : String) :
    ∀ (rules : List CategoryRule) (x : ScoredLabel), 0 < x.score →
      rules.foldl
        (fun acc rule =>
          if ruleScore text rule.keywords > acc.2 then
            (rule.label, ruleScore text rule.keywords)
          else acc) (x.label, x.score) =
        ((pickMax x (categoryScoresOf rules text)).label,
         (pickMax x (categoryScoresOf rules text)).score) := by
  intro rules
  induction rules with
  | nil => intro x _; rfl
  | cons r rs ih =>
    intro x hx
    rw [List.foldl_cons, categoryScoresOf_cons]
    by_cases hs : ruleScore text r.keywords > 0
    · rw [if_pos hs, pickMax_cons]
      dsimp only
      by_cases hgt : ruleScore text r.keywords > x.score
      · rw [if_pos hgt, if_pos hgt]
        exact ih ⟨r.label, ruleScore text r.keywords⟩ hs
      · rw [if_neg hgt, if_neg hgt]
        exact ih x hx
    · rw [if_neg hs]
      have hngt : ¬(ruleScore text r.keywords > x.score) := by omega
      show List.foldl _
          (if ruleScore text r.keywords > x.score then
            (r.label, ruleScore text r.keywords)
          else (x.label, x.score)) rs = _
      rw [if_neg hngt]
      exact ih x hx

theorem fold_no_scores (text : String) :
    ∀ (rules : List CategoryRule), categoryScoresOf rules text = [] →
      ∀ bl : String,
        rules.foldl
          (fun acc rule =>
            if ruleScore text rule.keywords > acc.2 then
              (rule.label, ruleScore text rule.keywords)
            else acc) (bl, 0) = (bl, 0) := by
  intro rules
  induction rules with
  | nil => intro _ _; rfl
  | cons r rs ih =>
    intro hsc bl
    rw [categoryScoresOf_cons] at hsc
    by_cases hs : ruleScore text r.keywords > 0
    · rw [if_pos hs] at hsc
      cases hsc
    · rw [if_neg hs] at hsc
      rw [List.foldl_cons]
      show List.foldl _
          (if ruleScore text r.keywords > 0 then
            (r.label, ruleScore text r.keywords)
          else (bl, 0)) rs = _
      rw [if_neg hs]
      exact ih hsc bl

theorem fold_start (text : String) :
    ∀ (rules : List CategoryRule) (x : ScoredLabel) (t : List ScoredLabel),
      categoryScoresOf rules text = x :: t →
      ∀ bl : String,
        rules.foldl
          (fun acc rule =>
            if ruleScore text rule.keywords > acc.2 then
              (rule.label, ruleScore text rule.keywords)
            else acc) (bl, 0) =
          ((pickMax x t).label, (pickMax x t).score) := by
  intro rules
  induction rules with
  | nil => intro x t h _; cases h
  | cons r rs ih =>
    intro x t hsc bl
    rw [categoryScoresOf_cons] at hsc
    rw [List.foldl_cons]
    show List.foldl _
        (if ruleScore text r.keywords > 0 then
          (r.label, ruleScore text r.keywords)
        else (bl, 0)) rs = _
    by_cases hs : ruleScore text r.keywords > 0
    · rw [if_pos hs] at hsc
      rw [if_pos hs]
      injection hsc with h1 h2
      subst h2
      have := fold_from_scored text rs ⟨r.label, ruleScore text r.keywords⟩ hs
      rw [this, ← h1]
    · rw [if_neg hs] at hsc
      rw [if_neg hs]
      exact ih x t hsc bl

theorem indexSelect_eq_loop (text : String) (rules : List CategoryRule)
    (hlab : ∀ r ∈ rules, ¬(r.label == "")) :
    (match (((sortByScoreDesc (categoryScoresOf rules text)).take 6).map
        (fun s => s.label)).head? with
      | some c => if c == "" then "General Website" else c
      | none => "General Website") =
      (rules.foldl
        (fun acc rule =>
          if ruleScore text rule.keywords > acc.2 then
            (rule.label, ruleScore text rule.keywords)
          else acc) ("General Website", 0)).1 := by
  cases hsc : categoryScoresOf rules text with
  | nil =>
    rw [fold_no_scores text rules hsc "General Website"]
    rfl
  | cons x t =>
    rw [fold_start text rules x t hsc "General Website"]
    have hhead : (((sortByScoreDesc (x :: t)).take 6).map
        (fun s => s.label)).head? = some (pickMax x t).label := by
      have h1 : (sortByScoreDesc (x :: t)).head? = some (pickMax x t) :=
        sortDesc_head t x
      cases hs2 : sortByScoreDesc (x :: t) with
      | nil => rw [hs2] at h1; cases h1
      | cons a l =>
        rw [hs2] at h1
        injection h1 with h1
        rw [← h1]
        rfl
    rw [hhead]
    have hmem2 : pickMax x t ∈ x :: t := by
      rcases pickMax_mem t x with h | h
      · rw [h]; exact List.mem_cons_self _ _
      · exact List.mem_cons_of_mem _ h
    rw [← hsc] at hmem2
    obtain ⟨rule, hrule, hf⟩ := List.mem_filterMap.mp hmem2
    have hlabel : ((pickMax x t).label == "") = false := by
      by_cases hp : ruleScore text rule.keywords > 0
      · rw [if_pos hp] at hf
        injection hf with hf
        have hlb : (pickMax x t).label = rule.label := by rw [← hf]
        rw [hlb]
        have := hlab rule hrule
        simp only [Bool.not_eq_true] at this
        exact this
      · rw [if_neg hp] at hf
        cases hf
    simp [hlabel]

/-- C3: all three category classifiers are deterministic functions of the
lowercased title-plus-body-prefix text, each equal to the spec-side
selector `specTopLabel` — the label of the first rule attaining the
maximum keyword score — and each returns the generic default exactly when
no rule scores above zero. The part_000/part_001 loops replace on strictly
greater score (first maximum wins); index.js filters the positive-score
rules, stable-sorts by descending score and takes the head, which the
proof shows selects the same first maximum. -/
theorem categoryClassification_spec (title body : String) :
    (extractCategoryEval000 title body =
      specTopLabel part000Rules (pageText title body 3000)) ∧
    (extractCategoryEval000 title body = "General Website" ↔
      maxRuleScore part000Rules (pageText title body 3000) = 0) ∧
    (extractCategoryEval001 title body =
      specTopLabel part001Rules (pageText title body 3000)) ∧
    (extractCategoryEval001 title body = "General Website" ↔
      maxRuleScore part001Rules (pageText title body 3000) = 0) ∧
    ((Index.extractWebsiteIntelligenceEval title body).websiteType =
      specTopLabel indexKeywordRules (pageText title body 6000)) ∧
    ((Index.extractWebsiteIntelligenceEval title body).websiteType =
        "General Website" ↔
      maxRuleScore indexKeywordRules (pageText title body 6000) = 0) := by
  have h000 : extractCategoryEval000 title body =
      specTopLabel part000Rules (pageText title body 3000) :=
    categoryLoop_eq_specTopLabel _ _
  have h001 : extractCategoryEval001 title body =
      specTopLabel part001Rules (pageText title body 3000) :=
    categoryLoop_eq_specTopLabel _ _
  have hmap : categoryLoop indexKeywordRules (pageText title body 6000) =
      (CATEGORY_RULES.foldl
        (fun acc rule =>
          if ruleScore (pageText title body 6000) rule.keywords > acc.2 then
            (rule.label, ruleScore (pageText title body 6000) rule.keywords)
          else acc) ("General Website", 0)).1 := by
    unfold categoryLoop indexKeywordRules
    rw [List.foldl_map]
  have hidx : (Index.extractWebsiteIntelligenceEval title body).websiteType =
      categoryLoop indexKeywordRules (pageText title body 6000) := by
    rw [hmap]
    exact indexSelect_eq_loop (pageText title body 6000) CATEGORY_RULES
      (by decide)
  have hidx2 : (Index.extractWebsiteIntelligenceEval title body).websiteType =
      specTopLabel indexKeywordRules (pageText title body 6000) := by
    rw [hidx]
    exact categoryLoop_eq_specTopLabel _ _
  refine ⟨h000, ?_, h001, ?_, hidx2, ?_⟩
  · rw [h000]
    exact specTopLabel_default_iff part000Rules _ (by decide)
  · rw [h001]
    exact specTopLabel_default_iff part001Rules _ (by decide)
  · rw [hidx2]
    exact specTopLabel_default_iff indexKeywordRules _ (by decide)

/-- C3 witness: the classifiers and the spec-side selector at a concrete
page text. -/
theorem categoryClassification_spec_witness :
    (extractCategoryEval000 "My Shop" "buy products in our store" =
      specTopLabel part000Rules
        (pageText "My Shop" "buy products in our store" 3000)) ∧
    extractCategoryEval000 "My Shop" "buy products in our store" =
      "E-commerce" :=
  ⟨(categoryClassification_spec "My Shop" "buy products in our store").1,
   by rfl⟩

theorem takeSchemeRun_spec (s : List Char) :
    s = (URLModel.takeSchemeRun s).1 ++ (URLModel.takeSchemeRun s).2 ∧
    ∀ c ∈ (URLModel.takeSchemeRun s).1, URLModel.isSchemeChar c = true := by
  induction s with
  | nil => exact ⟨rfl, by simp [URLModel.takeSchemeRun]⟩
  | cons c t ih =>
    unfold URLModel.takeSchemeRun
    by_cases hc : URLModel.isSchemeChar c
    · rw [hc]
      simp only
      refine ⟨?_, ?_⟩
      · show c :: t = c :: ((URLModel.takeSchemeRun t).1 ++
          (URLModel.takeSchemeRun t).2)
        rw [← ih.1]
      · intro d hd
        rcases List.mem_cons.mp hd with rfl | hd2
        · exact hc
        · exact ih.2 d hd2
    · rw [Bool.not_eq_true] at hc
      rw [hc]
      exact ⟨rfl, by simp⟩

theorem takeSchemeRun_append (sch r : List Char)
    (h : ∀ c ∈ sch, URLModel.isSchemeChar c = true) :
    URLModel.takeSchemeRun (sch ++ ':' :: r) = (sch, ':' :: r) := by
  induction sch with
  | nil => rfl
  | cons a as ih =>
    have ha := h a (List.mem_cons_self _ _)
    show URLModel.takeSchemeRun (a :: (as ++ ':' :: r)) = (a :: as, ':' :: r)
    unfold URLModel.takeSchemeRun
    rw [ha]
    simp only
    rw [ih (fun c hc => h c (List.mem_cons_of_mem _ hc))]
    simp

theorem splitScheme_eq_some_iff (s sch rest : List Char) :
    URLModel.splitScheme s = some (sch, rest) ↔
      s = sch ++ ':' :: rest ∧ isValidScheme sch = true := by
  constructor
  · intro h
    obtain ⟨hsplit, hall⟩ := takeSchemeRun_spec s
    unfold URLModel.splitScheme at h
    split at h
    · rename_i c sch2 r heq
      split at h
      · rename_i halpha
        injection h with h2
        injection h2 with h3 h4
        subst h3
        subst h4
        rw [heq] at hsplit hall
        refine ⟨hsplit, ?_⟩
        unfold isValidScheme
        simp only [Bool.and_eq_true, List.all_eq_true]
        exact ⟨by simpa using halpha, fun c hc => by simpa using hall c hc⟩
      · cases h
    · cases h
  · rintro ⟨rfl, hvs⟩
    cases sch with
    | nil => cases hvs
    | cons c cs =>
      unfold isValidScheme at hvs
      simp only [Bool.and_eq_true, List.all_eq_true] at hvs
      obtain ⟨halpha, hall⟩ := hvs
      unfold URLModel.splitScheme
      rw [takeSchemeRun_append (c :: cs) rest
        (fun d hd => by simpa using hall d hd)]
      simp [halpha]

/-- C2 counterexample: `"mailto:hello"` has a scheme but no authority, yet
`new URL` (and hence `isValidUrl`) accepts it, so acceptance is not
equivalent to having scheme AND authority. The two concrete behaviors the
claim cites do hold: `"not a url"` is rejected, `"https://example.com"` is
accepted. -/
theorem isValidUrl_mailto_counterexample :
    isValidUrl "mailto:hello" = true ∧
    specValidUrl "mailto:hello" = false ∧
    isValidUrl "not a url" = false ∧
    isValidUrl "https://example.com" = true :=
  ⟨rfl, rfl, rfl, rfl⟩

/-- C2 (amended): the validator accepts exactly the strings of the form
`scheme ":" rest` with a well-formed scheme (first character a letter,
then letters, digits, `+`, `-`, `.`) whose remainder passes
`parseAfterScheme` — which demands an authority only for the special
schemes. In particular (second conjunct) any non-special scheme followed
by an opaque path (no `//`) is accepted with no authority at all and with
no scheme restriction or network check; `"not a url"` (no colon) is
rejected and `"https://example.com"` accepted. -/
theorem isValidUrl_scheme_characterization (value : String) :
    (isValidUrl value = true ↔
      ∃ sch rest, value.data = sch ++ ':' :: rest ∧
        isValidScheme sch = true ∧
        (URLModel.parseAfterScheme ⟨sch.map Char.toLower⟩ rest).isSome
          = true) ∧
    (∀ sch rest, value.data = sch ++ ':' :: rest →
      isValidScheme sch = true →
      URLModel.specialSchemes.contains (⟨sch.map Char.toLower⟩ : String)
        = false →
      (∀ r, rest ≠ '/' :: '/' :: r) →
      isValidUrl value = true) := by
  constructor
  · constructor
    · intro h
      unfold isValidUrl URLModel.parseURL at h
      cases hs : URLModel.splitScheme value.data with
      | none => rw [hs] at h; cases h
      | some p =>
        obtain ⟨sch, rest⟩ := p
        rw [hs] at h
        dsimp only at h
        obtain ⟨heq, hvs⟩ := (splitScheme_eq_some_iff _ _ _).mp hs
        refine ⟨sch, rest, heq, hvs, ?_⟩
        cases hp : URLModel.parseAfterScheme ⟨sch.map Char.toLower⟩ rest with
        | none => rw [hp] at h; simp at h
        | some host => rfl
    · rintro ⟨sch, rest, heq, hvs, hps⟩
      unfold isValidUrl URLModel.parseURL
      rw [(splitScheme_eq_some_iff value.data sch rest).mpr ⟨heq, hvs⟩]
      dsimp only
      cases hp : URLModel.parseAfterScheme ⟨sch.map Char.toLower⟩ rest with
      | none => rw [hp] at hps; simp at hps
      | some host => rfl
  · intro sch rest heq hvs hns hnoslash
    have hps : URLModel.parseAfterScheme ⟨sch.map Char.toLower⟩ rest =
        some none := by
      unfold URLModel.parseAfterScheme
      rw [hns]
      simp only [Bool.false_eq_true, if_false]
    unfold isValidUrl URLModel.parseURL
    rw [(splitScheme_eq_some_iff value.data sch rest).mpr ⟨heq, hvs⟩]
    dsimp only
    rw [hps]
    rfl

/-- C2 witness: the characterization applied at concrete inputs — an
authority-less `mailto:` URL accepted through the opaque-path conjunct,
and `https://example.com` accepted through the equivalence. -/
theorem isValidUrl_scheme_characterization_witness :
    isValidUrl "mailto:hello" = true ∧
    isValidUrl "https://example.com" = true := by
  constructor
  · exact (isValidUrl_scheme_characterization "mailto:hello").2
      "mailto".data "hello".data (by decide) (by decide) (by decide)
      (by intro r h; simp at h)
  · exact (isValidUrl_scheme_characterization "https://example.com").1.mpr
      ⟨"https".data, "//example.com".data, by decide, by decide, by decide⟩
